import Mathlib

/-!
Verification development for the experiment-notebook service.

The service stores experiment notes (flowchart graphs filed under a
project/folder hierarchy) in a property-graph database.  The repository
contains two API variants of the same operations:

* `src/routers/notes.py` — the router variant (`NotesRouter` below), which
  keeps the hierarchy as plain string properties on the `Experiment` node and
  builds the flowchart with py2neo `Subgraph`/`Relationship` objects inside a
  transaction;
* `src/main.py` — the monolith variant (`MainApp` below), which materialises
  `Project` and `Folder` nodes with `MERGE` statements and wires flow nodes
  and edges by matching `id` properties.

The store is shallowly embedded: nodes are records with a numeric store
identity `nid`, a list of labels, and a string-valued property map; a
relationship records the two endpoint identities and its type string.  Every
Cypher statement used by the source is translated to a function on this
store.  Failures of database statements are modelled with an explicit fault
oracle `fault : Nat → Bool` (step `k` of the transaction raises iff
`fault k`), mirroring that any `tx.run`/`tx.create`/commit call can raise;
HTTP-level failures are `ApiError` values carrying the status code.

Pydantic property validation is embedded as follows.  The router variant's
models (`src/models.py`) all carry `extra='allow'` and one required aliased
field `"Node Name"`; parsing followed by `model_dump(by_alias=True)` (with
py2neo discarding `None` values) is the identity on string-valued property
maps containing `"Node Name"`, so `NotesRouter` shaping only checks that
field.  The monolith's models (`src/main.py`) lack `extra='allow'`, so
undeclared keys are dropped: `mainShape` keeps only each category's declared
aliases (the per-category tables from `src/main.py`).
-/

deriving instance DecidableEq for Except

namespace ExpNotes

/-- A property map: ordered association list of string keys and values.
All property values appearing in this service are strings (dates are stored
via `isoformat()`). -/
abbrev Props := List (String × String)

/-- A node of the property graph: store identity, labels, properties. -/
structure GNode where
  nid : Nat
  labels : List String
  props : Props
deriving DecidableEq, Repr

/-- A relationship of the property graph, identified by its endpoints'
store identities and its type string. -/
structure GRel where
  src : Nat
  tgt : Nat
  typ : String
deriving DecidableEq, Repr

/-- The graph store: node list, relationship list, next fresh identity.
A relationship entry stands for one stored relationship; duplicate entries
stand for distinct relationships with equal endpoints and type. -/
structure Store where
  nodes : List GNode
  rels : List GRel
  nextId : Nat
deriving DecidableEq, Repr

/-- The empty store. -/
def Store.empty : Store := ⟨[], [], 0⟩

/-- Well-formed store: every identity on record is below `nextId`. -/
def Store.WF (s : Store) : Prop :=
  (∀ n ∈ s.nodes, n.nid < s.nextId) ∧
  (∀ r ∈ s.rels, r.src < s.nextId ∧ r.tgt < s.nextId)

/-- A flowchart node as declared in a create/update request
(`models.py Node` / `main.py NodeData`). -/
structure ReqNode where
  id : String
  category : String
  props : Props
deriving DecidableEq, Repr

/-- A flowchart edge as declared in a request
(`models.py Edge` / `main.py EdgeData`). -/
structure ReqEdge where
  source_id : String
  target_id : String
  typ : String
deriving DecidableEq, Repr

/-- A create/update request body
(`models.py ExperimentCreate` / `main.py FlowchartData`). -/
structure Request where
  project_name : String
  folder_path : String
  experiment_name : String
  registrant : String
  registration_date : String
  nodes : List ReqNode
  edges : List ReqEdge
deriving DecidableEq, Repr

/-- A flowchart node of a response (`models.py Node` on the way out). -/
structure RespNode where
  id : String
  category : String
  props : Props
deriving DecidableEq, Repr

/-- A flowchart edge of a response. -/
structure RespEdge where
  source_id : String
  target_id : String
  typ : String
deriving DecidableEq, Repr

/-- The full experiment aggregate returned by reads and by the router's
create/update (`ExperimentDetails`). -/
structure Details where
  id : String
  project_name : String
  folder_path : String
  experiment_name : String
  registrant : String
  registration_date : String
  nodes : List RespNode
  edges : List RespEdge
deriving DecidableEq, Repr

/-- A structured HTTP error (status code plus detail). -/
structure ApiError where
  status : Nat
  detail : String
deriving DecidableEq, Repr

/-- An experiment summary row (`ExperimentInfo`). -/
structure ExpInfo where
  id : String
  name : String
  registrant : String
  registration_date : String
deriving DecidableEq, Repr

/-- Property lookup on a node. -/
def getProp (n : GNode) (k : String) : Option String :=
  n.props.lookup k

/-- Label membership test. -/
def hasLabel (n : GNode) (l : String) : Bool :=
  n.labels.contains l

/-- Does the node carry property `k` with value `v`? -/
def hasPropVal (n : GNode) (k v : String) : Bool :=
  getProp n k == some v

/-- `n` is an `Experiment` node whose `id` property equals `u`. -/
def isExpWithId (n : GNode) (u : String) : Bool :=
  hasLabel n "Experiment" && hasPropVal n "id" u

/-- Set (or overwrite) one key in a property map. -/
def setProp (ps : Props) (k v : String) : Props :=
  if ps.any (fun p => p.1 == k) then
    ps.map (fun p => if p.1 == k then (k, v) else p)
  else ps ++ [(k, v)]

/-- `SET n += $m` on a property map: each key of `m` is set/overwritten. -/
def mergeProps (ps m : Props) : Props :=
  m.foldl (fun acc kv => setProp acc kv.1 kv.2) ps

/-- Append a fresh node with the given labels and properties. -/
def addNode (s : Store) (labels : List String) (props : Props) : Store :=
  { s with nodes := s.nodes ++ [⟨s.nextId, labels, props⟩], nextId := s.nextId + 1 }

/-- Append a relationship (Cypher `CREATE`: always a new relationship). -/
def addRel (s : Store) (src tgt : Nat) (typ : String) : Store :=
  { s with rels := s.rels ++ [⟨src, tgt, typ⟩] }

/-- `MERGE (a)-[:T]->(b)` with both endpoints bound: create the
relationship unless one with the same endpoints and type exists. -/
def mergeRel (s : Store) (src tgt : Nat) (typ : String) : Store :=
  if s.rels.any (fun r => r.src == src && r.tgt == tgt && r.typ == typ) then s
  else addRel s src tgt typ

/-- Overwrite properties of the node with identity `nid` by `SET +=`. -/
def setNodeProps (s : Store) (nid : Nat) (m : Props) : Store :=
  { s with nodes := s.nodes.map (fun n => if n.nid == nid then { n with props := mergeProps n.props m } else n) }

/-- `DETACH DELETE` of the nodes with the given identities: the nodes and
every relationship incident to one of them disappear. -/
def detachDeleteNids (s : Store) (nids : List Nat) : Store :=
  { s with
    nodes := s.nodes.filter (fun n => !(nids.contains n.nid)),
    rels := s.rels.filter (fun r => !(nids.contains r.src) && !(nids.contains r.tgt)) }

/-- Look a node up by store identity. -/
def nodeById (s : Store) (nid : Nat) : Option GNode :=
  s.nodes.find? (fun n => n.nid == nid)

/-- The nodes reached from identity `e` by one relationship of type
`relTyp` (`MATCH (e)-[:relTyp]->(n)`), in store order with multiplicity. -/
def containedBy (s : Store) (e : Nat) (relTyp : String) : List GNode :=
  (s.rels.filter (fun r => r.typ == relTyp && r.src == e)).filterMap
    (fun r => nodeById s r.tgt)

/-- Path splitting used by both variants:
`[part for part in folder_path.split('/') if part]`.  Implemented by
structural recursion over the characters so that it evaluates by `decide`. -/
def splitSegsAux : List Char → List Char → List String
  | [], acc => if acc.isEmpty then [] else [String.mk acc.reverse]
  | c :: cs, acc =>
    if c == '/' then
      (if acc.isEmpty then splitSegsAux cs [] else String.mk acc.reverse :: splitSegsAux cs [])
    else splitSegsAux cs (c :: acc)

/-- Split a folder path on `/`, discarding empty segments. -/
def splitPath (p : String) : List String :=
  splitSegsAux p.toList []

/-- The closed category set (`Literal["Substances", "Processing",
"Measurement", "Others"]`). -/
def categories : List String := ["Substances", "Processing", "Measurement", "Others"]

/-- Declared aliases of `SubstanceProperties`. -/
def substanceKeys : List String :=
  ["Node Name", "Node Type", "CAS RN", "SMILES", "Weight", "Volume", "Note"]

/-- Declared aliases of the `Processing`/`Measurement`/`Others` property models. -/
def basicKeys : List String := ["Node Name", "Note"]

/-- Declared aliases for a category in the monolith's property models. -/
def declaredKeys (c : String) : List String :=
  if c == "Substances" then substanceKeys else basicKeys

/-- Property shaping of the monolith variant (`src/main.py` models, no
`extra='allow'`): parsing drops undeclared keys; dumping adds `None` for the
absent declared keys, which `SET n += $props` / py2neo discard again.  Net
effect: keep exactly the declared keys that were supplied. -/
def mainShape (c : String) (ps : Props) : Props :=
  ps.filter (fun kv => (declaredKeys c).contains kv.1)

/-- Request-level validation (done by FastAPI/pydantic before the endpoint
body runs): each node's category is one of the closed set and its required
`"Node Name"` field is present. -/
def nodeValid (n : ReqNode) : Bool :=
  categories.contains n.category && (n.props.lookup "Node Name").isSome

/-- All nodes of a request are valid. -/
def requestValid (r : Request) : Bool :=
  r.nodes.all nodeValid

/-- `Except` result test. -/
def exceptOk : Except ε α → Bool
  | .ok _ => true
  | .error _ => false

/-- Structural effectful map over `Except` (the shape of the per-item
response building loops). -/
def exMap (f : α → Except ApiError β) : List α → Except ApiError (List β)
  | [] => .ok []
  | a :: as =>
    match f a, exMap f as with
    | .ok b, .ok bs => .ok (b :: bs)
    | .error e, _ => .error e
    | .ok _, .error e => .error e

/-- Turn an optional value into a 500 error when absent (a missing stored
property makes the pydantic response model validation fail). -/
def reqProp (o : Option α) (what : String) : Except ApiError α :=
  match o with
  | some a => .ok a
  | none => .error ⟨500, "missing " ++ what⟩

/-- The relationships of `rels` whose two endpoints both lie in the node set
`S` — the induced subgraph used by both read queries (the router's
`UNWIND nodes AS n1 UNWIND nodes AS n2 OPTIONAL MATCH (n1)-[r]->(n2)` with
`collect(DISTINCT r)`, and the monolith's
`OPTIONAL MATCH (n)-[r]->(m) WHERE (e)-[:HAS_NODE]->(m)`). -/
def inducedEdges (S : List GNode) (rels : List GRel) : List GRel :=
  rels.filter (fun r =>
    (S.any (fun n => n.nid == r.src)) && (S.any (fun n => n.nid == r.tgt)))

/-- Build one response edge from a stored relationship whose endpoints are
bound within `S` (`source_id=e.nodes[0]['id']`, `target_id=e.nodes[1]['id']`;
a missing `id` property fails the pydantic response validation). -/
def mkRespEdge (S : List GNode) (r : GRel) : Except ApiError RespEdge :=
  match S.find? (fun n => n.nid == r.src), S.find? (fun n => n.nid == r.tgt) with
  | some n1, some n2 =>
    match getProp n1 "id", getProp n2 "id" with
    | some sid, some tid => .ok ⟨sid, tid, r.typ⟩
    | _, _ => .error ⟨500, "edge endpoint without id"⟩
  | _, _ => .error ⟨500, "edge endpoint outside node set"⟩

namespace MainApp

/-!
Embedding of `src/main.py` (the monolith variant).  Each `tx.run` statement
of `create_note`/`update_note` becomes one `TxStep`; `applyStep` is the
statement's semantics on the store.
-/

/-- One Cypher statement of the monolith's write transactions. -/
inductive TxStep where
  /-- `MERGE (p:Project {name: $name})` -/
  | mergeProject (name : String)
  /-- `MATCH (p:Project) WHERE p.name = $p_name`
      `MERGE (p)-[:CONTAINS]->(f:Folder {name: $f_name})` -/
  | mergeFolderRoot (pname fname : String)
  /-- `MATCH (f:Folder) WHERE f.name = $p_name`
      `MERGE (f)-[:CONTAINS]->(g:Folder {name: $f_name})` —
      note the parent is matched by name alone across the whole store. -/
  | mergeFolderChild (parentName fname : String)
  /-- `CREATE (e:Experiment {id, name, registrant, registration_date})` -/
  | createExp (id name registrant regDate : String)
  /-- final link for root paths: `MATCH (p:Project) WHERE p.name = $p_name`
      `MATCH (e:Experiment) WHERE e.id = $e_id MERGE (p)-[:CONTAINS]->(e)` -/
  | linkExpRoot (pname expId : String)
  /-- final link for folder paths, parent folder matched by name alone. -/
  | linkExpFolder (parentName expId : String)
  /-- `MERGE (n:<category> {id: $id}) SET n += $properties` -/
  | mergeFlowNode (category : String) (nodeId : String) (props : Props)
  /-- `MATCH (e:Experiment) WHERE e.id = $e_id MATCH (n) WHERE n.id = $n_id`
      `MERGE (e)-[:HAS_NODE]->(n)` — `n` is matched by `id` property over the
      whole store, with any label. -/
  | linkFlowNode (expId nodeId : String)
  /-- `MATCH (a) WHERE a.id = $source_id MATCH (b) WHERE b.id = $target_id`
      `MERGE (a)-[:<label>]->(b)` — endpoints matched by `id` over the whole
      store. -/
  | mergeEdge (sourceId targetId lbl : String)
deriving DecidableEq, Repr

/-- Does identity `parent` already contain a `Folder` named `fname`? -/
def childFolderExists (s : Store) (parent : Nat) (fname : String) : Bool :=
  s.rels.any (fun r =>
    r.src == parent && r.typ == "CONTAINS" &&
    (s.nodes.any (fun n =>
      n.nid == r.tgt && hasLabel n "Folder" && hasPropVal n "name" fname)))

/-- `MERGE (parent)-[:CONTAINS]->(:Folder {name: fname})` with `parent`
bound: reuse the existing child or create folder and relationship. -/
def mergeFolderUnder (s : Store) (parent : Nat) (fname : String) : Store :=
  if childFolderExists s parent fname then s
  else
    let nid := s.nextId
    addRel (addNode s ["Folder"] [("name", fname)]) parent nid "CONTAINS"

/-- Semantics of one statement.  Statements whose `MATCH` part yields several
rows perform their `MERGE` once per row (Cypher row semantics); rows are the
matching nodes in store order, and later rows observe earlier rows' writes. -/
def applyStep (s : Store) : TxStep → Store
  | .mergeProject name =>
    if s.nodes.any (fun n => hasLabel n "Project" && hasPropVal n "name" name) then s
    else addNode s ["Project"] [("name", name)]
  | .mergeFolderRoot pname fname =>
    let rows := (s.nodes.filter (fun n => hasLabel n "Project" && hasPropVal n "name" pname)).map (·.nid)
    rows.foldl (fun acc p => mergeFolderUnder acc p fname) s
  | .mergeFolderChild parentName fname =>
    let rows := (s.nodes.filter (fun n => hasLabel n "Folder" && hasPropVal n "name" parentName)).map (·.nid)
    rows.foldl (fun acc p => mergeFolderUnder acc p fname) s
  | .createExp id name registrant regDate =>
    addNode s ["Experiment"]
      [("id", id), ("name", name), ("registrant", registrant), ("registration_date", regDate)]
  | .linkExpRoot pname expId =>
    let ps := (s.nodes.filter (fun n => hasLabel n "Project" && hasPropVal n "name" pname)).map (·.nid)
    let es := (s.nodes.filter (fun n => isExpWithId n expId)).map (·.nid)
    ps.foldl (fun acc p => es.foldl (fun acc2 e => mergeRel acc2 p e "CONTAINS") acc) s
  | .linkExpFolder parentName expId =>
    let fs := (s.nodes.filter (fun n => hasLabel n "Folder" && hasPropVal n "name" parentName)).map (·.nid)
    let es := (s.nodes.filter (fun n => isExpWithId n expId)).map (·.nid)
    fs.foldl (fun acc f => es.foldl (fun acc2 e => mergeRel acc2 f e "CONTAINS") acc) s
  | .mergeFlowNode category nodeId props =>
    let rows := (s.nodes.filter (fun n => hasLabel n category && hasPropVal n "id" nodeId)).map (·.nid)
    if rows.isEmpty then
      addNode s [category] (mergeProps [("id", nodeId)] props)
    else rows.foldl (fun acc m => setNodeProps acc m props) s
  | .linkFlowNode expId nodeId =>
    let es := (s.nodes.filter (fun n => isExpWithId n expId)).map (·.nid)
    let ns := (s.nodes.filter (fun n => hasPropVal n "id" nodeId)).map (·.nid)
    es.foldl (fun acc e => ns.foldl (fun acc2 m => mergeRel acc2 e m "HAS_NODE") acc) s
  | .mergeEdge sourceId targetId lbl =>
    let as := (s.nodes.filter (fun n => hasPropVal n "id" sourceId)).map (·.nid)
    let bs := (s.nodes.filter (fun n => hasPropVal n "id" targetId)).map (·.nid)
    as.foldl (fun acc a => bs.foldl (fun acc2 b => mergeRel acc2 a b lbl) acc) s

/-- Run the statements in one transaction; statement `k` raises a store
error iff `fault k`.  On success the transaction's write set is returned. -/
def runSteps (fault : Nat → Bool) : Nat → Store → List TxStep → Except String Store
  | _, s, [] => .ok s
  | k, s, st :: rest =>
    if fault k then .error "StoreError" else runSteps fault (k + 1) (applyStep s st) rest

/-- The folder-chain statements of `create_note` (steps 1–2): the first
segment is merged under the project, every later segment under the folders
named like the previous segment. -/
def folderRest (prev : String) : List String → List TxStep
  | [] => []
  | f :: rest => TxStep.mergeFolderChild prev f :: folderRest f rest

/-- All folder statements for a segment list. -/
def folderSteps (pname : String) : List String → List TxStep
  | [] => []
  | f :: rest => TxStep.mergeFolderRoot pname f :: folderRest f rest

/-- `parent_name` after the folder loop: the last segment, or the project
name for a root path. -/
def lastSeg (d : String) : List String → String
  | [] => d
  | [f] => f
  | _ :: f :: rest => lastSeg d (f :: rest)

/-- The flow-node and edge statements shared by `create_note` steps 5–6 and
`update_note` steps 3–4. -/
def flowSteps (r : Request) (expId : String) : List TxStep :=
  (r.nodes.flatMap (fun n =>
    [TxStep.mergeFlowNode n.category n.id (mainShape n.category n.props),
     TxStep.linkFlowNode expId n.id])) ++
  r.edges.map (fun e => TxStep.mergeEdge e.source_id e.target_id e.typ)

/-- The full statement list of `create_note`. -/
def createSteps (r : Request) (expId : String) : List TxStep :=
  let parts := splitPath r.folder_path
  TxStep.mergeProject r.project_name ::
    folderSteps r.project_name parts ++
    [TxStep.createExp expId r.experiment_name r.registrant r.registration_date,
     if parts.isEmpty then TxStep.linkExpRoot r.project_name expId
     else TxStep.linkExpFolder (lastSeg r.project_name parts) expId] ++
    flowSteps r expId

/-- Steps 1–2 of `create_note`: upsert the project and the folder chain
(the `PathResolver` of the specification). -/
def resolveFolderChain (s : Store) (pname fpath : String) : Store :=
  (TxStep.mergeProject pname :: folderSteps pname (splitPath fpath)).foldl applyStep s

/-- Number of `Folder` nodes in the store. -/
def countFolders (s : Store) : Nat :=
  (s.nodes.filter (fun n => hasLabel n "Folder")).length

/-- `POST /create_note/` of `src/main.py`: validate, run the transaction,
commit (one more failure point); on any exception roll back, leaving the
store untouched, and answer 500.  The response carries only the generated
experiment id (plus a fixed message). -/
def create_note (fault : Nat → Bool) (s : Store) (r : Request) (expId : String) :
    Store × Except ApiError String :=
  if !requestValid r then (s, .error ⟨422, "validation error"⟩)
  else
    let steps := createSteps r expId
    match runSteps fault 0 s steps with
    | .error m => (s, .error ⟨500, "database error: " ++ m⟩)
    | .ok s' =>
      if fault steps.length then (s, .error ⟨500, "database error: commit"⟩)
      else (s', .ok expId)

/-- `CONTAINS*`-reachability (one or more hops), fuel-bounded by the number
of stored nodes. -/
def reachesFuel (rels : List GRel) : Nat → Nat → Nat → Bool
  | 0, _, _ => false
  | f + 1, a, b =>
    rels.any (fun r =>
      r.typ == "CONTAINS" && r.src == a && (r.tgt == b || reachesFuel rels f r.tgt b))

/-- `(p)-[:CONTAINS*]->(e)` over the store. -/
def reaches (s : Store) (a b : Nat) : Bool :=
  reachesFuel s.rels s.nodes.length a b

/-- Build one response node of `get_note`: labels minus `Resource`, first
label (or `Others`) as category, properties minus `id` reshaped through the
category's model; a missing `id`/`Node Name` or an off-set category fails
the response validation. -/
def mkRespNode (n : GNode) : Except ApiError RespNode :=
  let labels := n.labels.filter (fun l => l != "Resource")
  let category := labels.headD "Others"
  match getProp n "id" with
  | none => .error ⟨500, "missing node id"⟩
  | some i =>
    let ps := n.props.filter (fun kv => kv.1 != "id")
    if !(categories.contains category) then .error ⟨500, "bad category"⟩
    else if (ps.lookup "Node Name").isNone then .error ⟨500, "missing Node Name"⟩
    else .ok ⟨i, category, mainShape category ps⟩

/-- `GET /note/{exp_id}` of `src/main.py`:
`MATCH (p:Project)-[:CONTAINS*]->(e:Experiment {id})`,
`MATCH (e)-[:HAS_NODE]->(n)`,
`OPTIONAL MATCH (n)-[r]->(m) WHERE (e)-[:HAS_NODE]->(m)`.
No row (no project ancestor or no contained node) is a 404.  The response's
`folder_path` falls back to the model default `"/"` since the endpoint does
not return one. -/
def get_note (s : Store) (u : String) : Except ApiError Details :=
  let exps := s.nodes.filter (fun n => isExpWithId n u)
  let projects := s.nodes.filter (fun n => hasLabel n "Project")
  let cands := exps.filterMap (fun e =>
    (projects.find? (fun p => reaches s p.nid e.nid)).map (fun p => (p, e)))
  match cands.find? (fun pe => !(containedBy s pe.2.nid "HAS_NODE").isEmpty) with
  | none => .error ⟨404, "note not found"⟩
  | some (p, e) =>
    let S := containedBy s e.nid "HAS_NODE"
    match exMap mkRespNode S, exMap (mkRespEdge S) (inducedEdges S s.rels) with
    | .error er, _ => .error er
    | _, .error er => .error er
    | .ok ns, .ok es =>
      match getProp p "name", getProp e "name", getProp e "registrant",
            getProp e "registration_date" with
      | some pn, some en, some rg, some rd =>
        .ok ⟨u, pn, "/", en, rg, rd, ns, es⟩
      | _, _, _, _ => .error ⟨500, "missing metadata"⟩

/-- Descending-by-registration-date insertion used to model
`ORDER BY e.registration_date DESC` (ISO-8601 strings compare
lexicographically). -/
def insertDateDesc (x : ExpInfo) : List ExpInfo → List ExpInfo
  | [] => [x]
  | y :: ys =>
    if decide (y.registration_date ≤ x.registration_date) then x :: y :: ys
    else y :: insertDateDesc x ys

/-- Sort summaries by registration date, descending. -/
def sortDateDesc (l : List ExpInfo) : List ExpInfo :=
  l.foldr insertDateDesc []

/-- Summary row of a stored experiment; any missing field fails the
`ExperimentInfo` response validation. -/
def mkExpInfo (e : GNode) : Except ApiError ExpInfo :=
  match getProp e "id", getProp e "name", getProp e "registrant",
        getProp e "registration_date" with
  | some i, some n, some rg, some rd => .ok ⟨i, n, rg, rd⟩
  | _, _, _, _ => .error ⟨500, "missing summary field"⟩

/-- `GET /experiments/` of `src/main.py`.  For the root path the query lists
the experiments directly contained by the project, ordered by registration
date descending.  For a non-root path the generated query references the
parameters `f_name0, f_name1, …` while the supplied parameter map uses the
keys `f_name_0, f_name_1, …`; the store therefore rejects the statement with
a missing-parameter error, and the endpoint (which has no handler) surfaces
it as a 500. -/
def list_experiments (s : Store) (pname fpath : String) :
    Except ApiError (List ExpInfo) :=
  let parts := splitPath fpath
  if parts.isEmpty then
    let ps := s.nodes.filter (fun n => hasLabel n "Project" && hasPropVal n "name" pname)
    let es := (ps.flatMap (fun p => containedBy s p.nid "CONTAINS")).filter
      (fun n => hasLabel n "Experiment")
    match exMap mkExpInfo es with
    | .error er => .error er
    | .ok infos => .ok (sortDateDesc infos)
  else .error ⟨500, "ParameterMissing: Expected parameter(s): f_name0"⟩

/-- `DELETE /note/{exp_id}` of `src/main.py`:
`MATCH (e:Experiment {id}) OPTIONAL MATCH (e)-[:HAS_NODE]->(n)`
`DETACH DELETE e, n`.  When nothing was deleted the endpoint raises a 404 —
inside the `try` block, so the catch-all handler re-wraps it into a 500. -/
def delete_note (s : Store) (u : String) : Store × Except ApiError Unit :=
  let exps := (s.nodes.filter (fun n => isExpWithId n u)).map (·.nid)
  let owned := (s.rels.filter (fun r => r.typ == "HAS_NODE" && exps.contains r.src)).map (·.tgt)
  if exps.isEmpty then (s, .error ⟨500, "database error: 404: note not found"⟩)
  else (detachDeleteNids s (exps ++ owned), .ok ())

/-- `PUT /note/{exp_id}` of `src/main.py`.  When no experiment matches,
`properties_set` is `0`: the code rolls back and raises a 404, which the
catch-all handler converts into a 500 (`tx.rollback()` is even invoked a
second time there); the store is left unchanged either way.  When the
experiment exists: overwrite its metadata (the code writes the key
`registration_data`, a typo preserved here), detach-delete the owned flow
nodes, and re-run the create statements for nodes and edges. -/
def update_note (s : Store) (u : String) (r : Request) :
    Store × Except ApiError String :=
  if !requestValid r then (s, .error ⟨422, "validation error"⟩)
  else
    let matched := (s.nodes.filter (fun n => isExpWithId n u)).map (·.nid)
    if matched.isEmpty then
      (s, .error ⟨500, "database error: 404: note not found"⟩)
    else
      let s1 := matched.foldl (fun acc nid =>
        setNodeProps acc nid
          [("name", r.experiment_name), ("registrant", r.registrant),
           ("registration_data", r.registration_date)]) s
      let doomed := (s1.rels.filter (fun rl => rl.typ == "HAS_NODE" && matched.contains rl.src)).map (·.tgt)
      let s2 := detachDeleteNids s1 doomed
      match runSteps (fun _ => false) 0 s2 (flowSteps r u) with
      | .error m => (s, .error ⟨500, "database error: " ++ m⟩)
      | .ok s3 => (s3, .ok u)

end MainApp

namespace NotesRouter

/-!
Embedding of `src/routers/notes.py` (the router variant).  This variant does
not materialise `Project`/`Folder` nodes: the hierarchy lives in string
properties of the `Experiment` node.  `tx.create` on py2neo objects always
creates fresh records, and relationships reference those records directly,
so edge endpoints can only be the nodes of the same request.
-/

/-- The py2neo nodes of one create request, in construction order: the
`Experiment` node first, then one node per declared flow node whose
properties are the caller id plus the (pass-through) shaped properties. -/
def nodeSpecs (r : Request) (expId : String) : List (List String × Props) :=
  (["Experiment"],
    [("id", expId), ("project_name", r.project_name), ("folder_path", r.folder_path),
     ("experiment_name", r.experiment_name), ("registrant", r.registrant),
     ("registration_date", r.registration_date)]) ::
  r.nodes.map (fun n => ([n.category], ("id", n.id) :: n.props))

/-- Create fresh nodes for all specs (`tx.create(Subgraph(...))`). -/
def addNodes (s : Store) (specs : List (List String × Props)) : Store :=
  specs.foldl (fun acc sp => addNode acc sp.1 sp.2) s

/-- `node_map.get` of the create loop: the dict keeps the last node stored
under an id, so resolve to the index of the last request node with that id. -/
def idxOfLast (nodes : List ReqNode) (i : String) : Option Nat :=
  ((nodes.enum.filter (fun p => p.2.id == i)).getLast?).map (·.1)

/-- The relationships created by `create_note` after the subgraph, given the
identity `base` of the `Experiment` node (request node `j` has identity
`base + 1 + j`): one `CONTAINS` per flow node, then one typed relationship
per declared edge whose two endpoints are found in the request's `node_map`
— an edge with a missing endpoint contributes nothing. -/
def relList (r : Request) (base : Nat) : List GRel :=
  (List.range r.nodes.length).map (fun j => ⟨base, base + 1 + j, "CONTAINS"⟩) ++
  r.edges.filterMap (fun e =>
    match idxOfLast r.nodes e.source_id, idxOfLast r.nodes e.target_id with
    | some i, some j => some ⟨base + 1 + i, base + 1 + j, e.typ⟩
    | _, _ => none)

/-- Run the relationship-creating calls; call `k` raises iff `fault k`. -/
def runRels (fault : Nat → Bool) : Nat → Store → List GRel → Except String Store
  | _, s, [] => .ok s
  | k, s, rl :: rest =>
    if fault k then .error "StoreError"
    else runRels fault (k + 1) (addRel s rl.src rl.tgt rl.typ) rest

/-- The create response: `exp_data.model_dump(by_alias=True)` plus the
generated id — the request fields echoed verbatim, nodes and edges included. -/
def createResponse (r : Request) (expId : String) : Details :=
  ⟨expId, r.project_name, r.folder_path, r.experiment_name, r.registrant,
   r.registration_date,
   r.nodes.map (fun n => ⟨n.id, n.category, n.props⟩),
   r.edges.map (fun e => ⟨e.source_id, e.target_id, e.typ⟩)⟩

/-- `POST /experiments/` of `src/routers/notes.py`.  A request property
named `id` collides with the `id=` keyword argument of the py2neo `Node`
constructor (a `TypeError`, caught by the handler).  Otherwise: create the
subgraph (step 0), the `CONTAINS` links and the in-request edges (steps
`1…`), and commit (one more failure point).  Any exception rolls the
transaction back and surfaces as a 500; on success the echoed request plus
the new id is returned. -/
def create_note (fault : Nat → Bool) (s : Store) (r : Request) (expId : String) :
    Store × Except ApiError Details :=
  if !requestValid r then (s, .error ⟨422, "validation error"⟩)
  else if r.nodes.any (fun n => (n.props.lookup "id").isSome) then
    (s, .error ⟨500, "Failed to create note: TypeError"⟩)
  else
    let rl := relList r s.nextId
    let body :=
      if fault 0 then Except.error "StoreError"
      else runRels fault 1 (addNodes s (nodeSpecs r expId)) rl
    match body with
    | .error m => (s, .error ⟨500, "Failed to create note: " ++ m⟩)
    | .ok s' =>
      if fault (1 + rl.length) then (s, .error ⟨500, "Failed to create note: StoreError"⟩)
      else (s', .ok (createResponse r expId))

/-- Build one response node of `get_note_by_uuid`: first label other than
`Experiment` (default `Unknown`) as category, properties minus `id`; the
pydantic `Node` model then demands a string id, a known category, and the
required `Node Name` field. -/
def mkRespNode (n : GNode) : Except ApiError RespNode :=
  match getProp n "id" with
  | none => .error ⟨500, "missing node id"⟩
  | some i =>
    let category := (n.labels.find? (fun l => l != "Experiment")).getD "Unknown"
    let ps := n.props.filter (fun kv => kv.1 != "id")
    if !(categories.contains category) then .error ⟨500, "bad category"⟩
    else if (ps.lookup "Node Name").isNone then .error ⟨500, "missing Node Name"⟩
    else .ok ⟨i, category, ps⟩

/-- `GET /experiments/{exp_uuid}` of `src/routers/notes.py`:
`MATCH (exp:Experiment {id: $exp_uuid})-[:CONTAINS]->(n)` — an experiment
with no contained node yields no row, hence a 404 — then the induced edges
between collected nodes, then the response assembled from the experiment's
stored properties. -/
def get_note_by_uuid (s : Store) (u : String) : Except ApiError Details :=
  let exps := s.nodes.filter (fun n => isExpWithId n u)
  match exps.find? (fun e => !(containedBy s e.nid "CONTAINS").isEmpty) with
  | none => .error ⟨404, "note not found"⟩
  | some e =>
    let S := containedBy s e.nid "CONTAINS"
    match exMap mkRespNode S, exMap (mkRespEdge S) (inducedEdges S s.rels) with
    | .error er, _ => .error er
    | _, .error er => .error er
    | .ok ns, .ok es =>
      match getProp e "project_name", getProp e "folder_path",
            getProp e "experiment_name", getProp e "registrant",
            getProp e "registration_date" with
      | some pn, some fp, some en, some rg, some rd =>
        .ok ⟨u, pn, fp, en, rg, rd, ns, es⟩
      | _, _, _, _, _ => .error ⟨500, "missing metadata"⟩

/-- `DELETE /experiments/{exp_uuid}` of `src/routers/notes.py`:
`MATCH (exp:Experiment {id: $exp_uuid}) DETACH DELETE exp` — only the
experiment node itself is deleted (its relationships go with it, but the
contained flow nodes stay); zero deleted nodes is a 404, raised outside any
`try` block and therefore surfacing as a genuine 404. -/
def delete_note_by_uuid (s : Store) (u : String) : Store × Except ApiError Unit :=
  let matched := (s.nodes.filter (fun n => isExpWithId n u)).map (·.nid)
  if matched.isEmpty then (s, .error ⟨404, "Experiment not found to delete"⟩)
  else (detachDeleteNids s matched, .ok ())

/-- `PUT /experiments/{exp_uuid}` of `src/routers/notes.py`.  The 404 raised
when the experiment is missing happens inside the `try` block, so the
catch-all handler rolls back and re-wraps it into a 500.  Otherwise the
metadata is overwritten, the contained flow nodes are detach-deleted, fresh
nodes/links/edges are created as in `create_note`, the transaction commits,
and the committed state is re-read; a failing re-read surfaces as a 500 with
the new state already committed. -/
def update_note (s : Store) (u : String) (r : Request) :
    Store × Except ApiError Details :=
  if !requestValid r then (s, .error ⟨422, "validation error"⟩)
  else
    match s.nodes.find? (fun n => isExpWithId n u) with
    | none => (s, .error ⟨500, "Failed to update note: 404: Experiment not found to update"⟩)
    | some e =>
      if r.nodes.any (fun n => (n.props.lookup "id").isSome) then
        (s, .error ⟨500, "Failed to update note: TypeError"⟩)
      else
        let s1 := setNodeProps s e.nid
          [("project_name", r.project_name), ("folder_path", r.folder_path),
           ("experiment_name", r.experiment_name), ("registrant", r.registrant),
           ("registration_date", r.registration_date)]
        let doomed := (s1.rels.filter (fun rl => rl.typ == "CONTAINS" && rl.src == e.nid)).map (·.tgt)
        let s2 := detachDeleteNids s1 doomed
        let base := s2.nextId
        let s3 := addNodes s2 (r.nodes.map (fun n => ([n.category], ("id", n.id) :: n.props)))
        let s4 := (List.range r.nodes.length).foldl
          (fun acc j => addRel acc e.nid (base + j) "CONTAINS") s3
        let s5 := (r.edges.filterMap (fun ed =>
            match idxOfLast r.nodes ed.source_id, idxOfLast r.nodes ed.target_id with
            | some i, some j => some (⟨base + i, base + j, ed.typ⟩ : GRel)
            | _, _ => none)).foldl (fun acc rl => addRel acc rl.src rl.tgt rl.typ) s4
        match get_note_by_uuid s5 u with
        | .ok d => (s5, .ok d)
        | .error _ => (s5, .error ⟨500, "Failed to update note"⟩)

/-- `GET /experiments/` of `src/routers/notes.py`, `project_name` +
`folder_path` branch: a property filter on the experiment nodes with a
prefix match on the folder path, returned in store order — without any
`ORDER BY`. -/
def list_by_folder (s : Store) (pname fprefix : String) : List GNode :=
  s.nodes.filter (fun n =>
    hasLabel n "Experiment" && hasPropVal n "project_name" pname &&
    (match getProp n "folder_path" with
     | some fp => fp.startsWith fprefix
     | none => false))

end NotesRouter

/-! ### Concrete fixtures used by witnesses and counterexamples -/

/-- The constantly-absent fault oracle: no database call fails. -/
def noFault : Nat → Bool := fun _ => false

/-- The constantly-present fault oracle: the first database call fails. -/
def allFault : Nat → Bool := fun _ => true

/-- Metadata properties shared by the sample experiment node (it carries
both variants' property names so both read paths accept it). -/
def sampleExpProps : Props :=
  [("id", "E"), ("name", "exp"), ("project_name", "P"), ("folder_path", "/"),
   ("experiment_name", "exp"), ("registrant", "alice"),
   ("registration_date", "2024-01-01")]

/-- A sample store: one project containing one experiment `E` that owns two
flow nodes `n1`, `n2` (via `CONTAINS` for the router variant and `HAS_NODE`
for the monolith) with one `X` edge from `n1` to `n2`. -/
def sampleStore : Store :=
  ⟨[⟨0, ["Project"], [("name", "P")]⟩,
    ⟨1, ["Experiment"], sampleExpProps⟩,
    ⟨2, ["Substances"], [("id", "n1"), ("Node Name", "a")]⟩,
    ⟨3, ["Measurement"], [("id", "n2"), ("Node Name", "b")]⟩],
   [⟨0, 1, "CONTAINS"⟩, ⟨1, 2, "CONTAINS"⟩, ⟨1, 3, "CONTAINS"⟩,
    ⟨1, 2, "HAS_NODE"⟩, ⟨1, 3, "HAS_NODE"⟩, ⟨2, 3, "X"⟩],
   4⟩

/-- A store holding only a project and an experiment `E` with no flow nodes. -/
def emptyExpStore : Store :=
  ⟨[⟨0, ["Project"], [("name", "P")]⟩, ⟨1, ["Experiment"], sampleExpProps⟩],
   [⟨0, 1, "CONTAINS"⟩], 2⟩

/-- A request with one flow node and no edges. -/
def oneNodeReq : Request :=
  ⟨"P", "/", "exp", "alice", "2024-01-01",
   [⟨"n1", "Substances", [("Node Name", "a")]⟩], []⟩

/-- A request declaring node `n1` only, plus an edge to the undeclared `n2`. -/
def danglingEdgeReq : Request :=
  ⟨"P", "/", "exp", "alice", "2024-01-01",
   [⟨"n1", "Substances", [("Node Name", "a")]⟩], [⟨"n1", "n2", "X"⟩]⟩

/-! ### Claim theorems -/

/-- **C5** (code bug).  Path resolution is **not** idempotent: the parent
anchor of each later segment is matched by folder *name alone across the
whole store* (`MATCH (f0:Folder) WHERE f0.name = $p_name`), not by its
position in the chain.  With the path `/a/a` the second resolution run
matches *both* stored folders named `a` and merges a child `a` under each,
creating a third folder; a first run creates two.  (A third run creates a
fourth, and so on.) -/
theorem path_resolution_duplicates_folders :
    MainApp.countFolders (MainApp.resolveFolderChain Store.empty "P" "/a/a") = 2 ∧
    MainApp.countFolders
      (MainApp.resolveFolderChain
        (MainApp.resolveFolderChain Store.empty "P" "/a/a") "P" "/a/a") = 3 ∧
    MainApp.countFolders
      (MainApp.resolveFolderChain
        (MainApp.resolveFolderChain
          (MainApp.resolveFolderChain Store.empty "P" "/a/a") "P" "/a/a") "P" "/a/a") = 4 := by
  decide

/-- **C3** (code bug).  Updating a nonexistent experiment id does leave the
store unchanged, but the client does **not** receive a NotFound error: in
both variants the 404 raised on the missing experiment happens inside the
`try` block and is re-wrapped by the catch-all `except Exception` handler
into a 500 response. -/
theorem update_missing_id_wraps_notfound_into_500 :
    NotesRouter.update_note sampleStore "missing" oneNodeReq =
      (sampleStore,
       .error ⟨500, "Failed to update note: 404: Experiment not found to update"⟩) ∧
    MainApp.update_note sampleStore "missing" oneNodeReq =
      (sampleStore, .error ⟨500, "database error: 404: note not found"⟩) := by
  decide

/-- **C8** (code bug).  Listing experiments under a non-root folder path can
never return a (possibly empty) ordered sequence: the generated query
references the parameters `f_name0, f_name1, …` while the endpoint supplies
them under the keys `f_name_0, f_name_1, …`, so the store rejects the
statement and the unhandled error surfaces as a 500 — for *every* store,
matching experiments or not.  (The root-path branch does return an empty
sequence on zero matches.) -/
theorem folder_scoped_listing_errors_on_missing_parameter :
    MainApp.list_experiments sampleStore "P" "/a" =
      .error ⟨500, "ParameterMissing: Expected parameter(s): f_name0"⟩ ∧
    MainApp.list_experiments Store.empty "P" "/" = .ok [] := by
  decide

/-- **C1** (confirmed).  For any pattern of database failures (the fault
oracle may fail any statement — hierarchy upsert, experiment creation, flow
node creation, edge creation — or the commit), a create request that does
not succeed leaves the store exactly as it was: both variants run all
writes in one transaction and the catch-all handler rolls it back. -/
theorem create_rolls_back_on_any_failure (fault : Nat → Bool) (s : Store)
    (r : Request) (expId : String) :
    (exceptOk (NotesRouter.create_note fault s r expId).2 = false →
      (NotesRouter.create_note fault s r expId).1 = s) ∧
    (exceptOk (MainApp.create_note fault s r expId).2 = false →
      (MainApp.create_note fault s r expId).1 = s) := by
  constructor
  · have key : ∀ out : Store × Except ApiError Details,
        NotesRouter.create_note fault s r expId = out →
        exceptOk out.2 = false → out.1 = s := by
      intro out hout hko
      simp only [NotesRouter.create_note] at hout
      split at hout
      · rw [← hout]
      · split at hout
        · rw [← hout]
        · split at hout
          · rw [← hout]
          · split at hout
            · rw [← hout]
            · rw [← hout] at hko ⊢
              simp [exceptOk] at hko
    exact key _ rfl
  · have key : ∀ out : Store × Except ApiError String,
        MainApp.create_note fault s r expId = out →
        exceptOk out.2 = false → out.1 = s := by
      intro out hout hko
      simp only [MainApp.create_note] at hout
      split at hout
      · rw [← hout]
      · split at hout
        · rw [← hout]
        · split at hout
          · rw [← hout]
          · rw [← hout] at hko ⊢
            simp [exceptOk] at hko
    exact key _ rfl

/-- Witness for C1: with every database call failing, both creates report an
error and the sample store is untouched. -/
theorem create_rolls_back_on_any_failure_witness :
    (exceptOk (NotesRouter.create_note allFault sampleStore danglingEdgeReq "E9").2 = false ∧
      (NotesRouter.create_note allFault sampleStore danglingEdgeReq "E9").1 = sampleStore) ∧
    (exceptOk (MainApp.create_note allFault sampleStore danglingEdgeReq "E9").2 = false ∧
      (MainApp.create_note allFault sampleStore danglingEdgeReq "E9").1 = sampleStore) :=
  ⟨⟨by decide,
    (create_rolls_back_on_any_failure allFault sampleStore danglingEdgeReq "E9").1 (by decide)⟩,
   ⟨by decide,
    (create_rolls_back_on_any_failure allFault sampleStore danglingEdgeReq "E9").2 (by decide)⟩⟩

/-- **C10** (confirmed).  An experiment that exists but contains no flow
node is invisible to both read queries: the router's
`MATCH (exp:Experiment {id})-[:CONTAINS]->(n)` and the monolith's
`MATCH (e)-[:HAS_NODE]->(n)` each demand at least one containment hop, so
the read yields no row and the endpoint answers 404 instead of an
`ExperimentDetails` with empty lists. -/
theorem get_empty_experiment_returns_notfound (s : Store) (u : String)
    (hex : ∃ e ∈ s.nodes, isExpWithId e u = true)
    (hrc : ∀ e ∈ s.nodes, isExpWithId e u = true → containedBy s e.nid "CONTAINS" = [])
    (hhn : ∀ e ∈ s.nodes, isExpWithId e u = true → containedBy s e.nid "HAS_NODE" = []) :
    NotesRouter.get_note_by_uuid s u = .error ⟨404, "note not found"⟩ ∧
    MainApp.get_note s u = .error ⟨404, "note not found"⟩ := by
  obtain ⟨e0, he0, hexp0⟩ := hex
  constructor
  · have hfind : (s.nodes.filter (fun n => isExpWithId n u)).find?
        (fun e => !(containedBy s e.nid "CONTAINS").isEmpty) = none := by
      rw [List.find?_eq_none]
      intro e he
      have h1 := List.mem_filter.mp he
      rw [hrc e h1.1 h1.2]
      simp
    simp only [NotesRouter.get_note_by_uuid, hfind]
  · have hfind : ((s.nodes.filter (fun n => isExpWithId n u)).filterMap (fun e =>
        ((s.nodes.filter (fun n => hasLabel n "Project")).find?
          (fun p => MainApp.reaches s p.nid e.nid)).map (fun p => (p, e)))).find?
        (fun pe => !(containedBy s pe.2.nid "HAS_NODE").isEmpty) = none := by
      rw [List.find?_eq_none]
      intro pe hpe
      obtain ⟨e, he, hmape⟩ := List.mem_filterMap.mp hpe
      have h1 := List.mem_filter.mp he
      cases hfp : (s.nodes.filter (fun n => hasLabel n "Project")).find?
          (fun p => MainApp.reaches s p.nid e.nid) with
      | none => rw [hfp] at hmape; simp at hmape
      | some p =>
        rw [hfp] at hmape
        injection hmape with h2
        subst h2
        simp [hhn e h1.1 h1.2]
    simp only [MainApp.get_note, hfind]

/-- Witness for C10: a store holding a project and an experiment `E` with
zero flow nodes, on which both reads answer 404. -/
theorem get_empty_experiment_returns_notfound_witness :
    NotesRouter.get_note_by_uuid emptyExpStore "E" = .error ⟨404, "note not found"⟩ ∧
    MainApp.get_note emptyExpStore "E" = .error ⟨404, "note not found"⟩ :=
  get_empty_experiment_returns_notfound emptyExpStore "E"
    ⟨⟨1, ["Experiment"], sampleExpProps⟩, by decide, by decide⟩
    (by decide) (by decide)

/-! ### Helper lemmas shared between claims -/

theorem exMap_mem_ok {f : α → Except ApiError β} :
    ∀ {l : List α} {ys : List β}, exMap f l = .ok ys → ∀ x ∈ l, ∃ y ∈ ys, f x = .ok y := by
  intro l
  induction l with
  | nil => intro ys h x hx; cases hx
  | cons a as ih =>
    intro ys h x hx
    cases hfa : f a with
    | error er => simp [exMap, hfa] at h
    | ok b =>
      cases hrest : exMap f as with
      | error er => simp [exMap, hfa, hrest] at h
      | ok bs =>
        simp only [exMap, hfa, hrest] at h
        cases h
        cases hx with
        | head => exact ⟨b, List.mem_cons_self .., hfa⟩
        | tail _ hx2 =>
          obtain ⟨y, hy, hfy⟩ := ih hrest x hx2
          exact ⟨y, List.mem_cons_of_mem _ hy, hfy⟩

theorem exMap_ok_mem_rev {f : α → Except ApiError β} :
    ∀ {l : List α} {ys : List β}, exMap f l = .ok ys → ∀ y ∈ ys, ∃ x ∈ l, f x = .ok y := by
  intro l
  induction l with
  | nil =>
    intro ys h y hy
    simp only [exMap] at h
    cases h
    cases hy
  | cons a as ih =>
    intro ys h y hy
    cases hfa : f a with
    | error er => simp [exMap, hfa] at h
    | ok b =>
      cases hrest : exMap f as with
      | error er => simp [exMap, hfa, hrest] at h
      | ok bs =>
        simp only [exMap, hfa, hrest] at h
        cases h
        cases hy with
        | head => exact ⟨a, List.mem_cons_self .., hfa⟩
        | tail _ hy2 =>
          obtain ⟨x, hx, hfx⟩ := ih hrest y hy2
          exact ⟨x, List.mem_cons_of_mem _ hx, hfx⟩

theorem mkRespEdge_ok {S : List GNode} {r : GRel} {re : RespEdge}
    (h : mkRespEdge S r = .ok re) :
    (∃ n ∈ S, getProp n "id" = some re.source_id) ∧
    (∃ n ∈ S, getProp n "id" = some re.target_id) := by
  unfold mkRespEdge at h
  split at h
  case _ n1 n2 hf1 hf2 =>
    split at h
    case _ sid tid hid1 hid2 =>
      cases h
      exact ⟨⟨n1, List.mem_of_find?_eq_some hf1, hid1⟩,
             ⟨n2, List.mem_of_find?_eq_some hf2, hid2⟩⟩
    case _ => cases h
  case _ => cases h

theorem NotesRouter.routerRespNode_ok_id {n : GNode} {rn : RespNode}
    (h : NotesRouter.mkRespNode n = .ok rn) : getProp n "id" = some rn.id := by
  unfold NotesRouter.mkRespNode at h
  split at h
  · cases h
  case _ i hgp =>
    dsimp only at h
    split at h
    · cases h
    · split at h
      · cases h
      · cases h
        exact hgp

theorem MainApp.mainRespNode_ok_id {n : GNode} {rn : RespNode}
    (h : MainApp.mkRespNode n = .ok rn) : getProp n "id" = some rn.id := by
  unfold MainApp.mkRespNode at h
  split at h
  · cases h
  case _ i hgp =>
    dsimp only at h
    split at h
    · cases h
    · split at h
      · cases h
      · cases h
        exact hgp

/-- **C2** (confirmed).  Both read paths only emit edges whose two
endpoints carry the `id` of some node of the returned node list: the
router's query `UNWIND`s the collected node list twice and matches
relationships between those pairs only, and the monolith restricts the
optional match by `WHERE (e)-[:HAS_NODE]->(m)`; a relationship with an
endpoint outside the experiment's node set never surfaces. -/
theorem read_edges_closed_in_node_set (s : Store) (u : String) (d : Details) :
    (NotesRouter.get_note_by_uuid s u = .ok d →
      ∀ re ∈ d.edges,
        d.nodes.any (fun n => n.id == re.source_id) = true ∧
        d.nodes.any (fun n => n.id == re.target_id) = true) ∧
    (MainApp.get_note s u = .ok d →
      ∀ re ∈ d.edges,
        d.nodes.any (fun n => n.id == re.source_id) = true ∧
        d.nodes.any (fun n => n.id == re.target_id) = true) := by
  constructor
  · intro h re hre
    simp only [NotesRouter.get_note_by_uuid] at h
    split at h
    · cases h
    case _ e hfind =>
      split at h
      · cases h
      · cases h
      case _ ns es hns hes =>
        split at h
        case _ pn fp en rg rd hpn hfp2 hen hrg hrd =>
          cases h
          obtain ⟨rl, _, hrl⟩ := exMap_ok_mem_rev hes re hre
          obtain ⟨⟨n1, hn1S, hid1⟩, ⟨n2, hn2S, hid2⟩⟩ := mkRespEdge_ok hrl
          obtain ⟨rn1, hrn1, hok1⟩ := exMap_mem_ok hns n1 hn1S
          obtain ⟨rn2, hrn2, hok2⟩ := exMap_mem_ok hns n2 hn2S
          have e1 := NotesRouter.routerRespNode_ok_id hok1
          have e2 := NotesRouter.routerRespNode_ok_id hok2
          rw [e1] at hid1
          rw [e2] at hid2
          exact ⟨List.any_eq_true.mpr ⟨rn1, hrn1, beq_iff_eq.mpr (Option.some.inj hid1)⟩,
                 List.any_eq_true.mpr ⟨rn2, hrn2, beq_iff_eq.mpr (Option.some.inj hid2)⟩⟩
        case _ => cases h
  · intro h re hre
    simp only [MainApp.get_note] at h
    split at h
    · cases h
    case _ p e hfind =>
      split at h
      · cases h
      · cases h
      case _ ns es hns hes =>
        split at h
        case _ pn en rg rd hpn hen hrg hrd =>
          cases h
          obtain ⟨rl, _, hrl⟩ := exMap_ok_mem_rev hes re hre
          obtain ⟨⟨n1, hn1S, hid1⟩, ⟨n2, hn2S, hid2⟩⟩ := mkRespEdge_ok hrl
          obtain ⟨rn1, hrn1, hok1⟩ := exMap_mem_ok hns n1 hn1S
          obtain ⟨rn2, hrn2, hok2⟩ := exMap_mem_ok hns n2 hn2S
          have e1 := MainApp.mainRespNode_ok_id hok1
          have e2 := MainApp.mainRespNode_ok_id hok2
          rw [e1] at hid1
          rw [e2] at hid2
          exact ⟨List.any_eq_true.mpr ⟨rn1, hrn1, beq_iff_eq.mpr (Option.some.inj hid1)⟩,
                 List.any_eq_true.mpr ⟨rn2, hrn2, beq_iff_eq.mpr (Option.some.inj hid2)⟩⟩
        case _ => cases h

/-- The details both reads return for `sampleStore`. -/
def sampleDetails : Details :=
  ⟨"E", "P", "/", "exp", "alice", "2024-01-01",
   [⟨"n1", "Substances", [("Node Name", "a")]⟩,
    ⟨"n2", "Measurement", [("Node Name", "b")]⟩],
   [⟨"n1", "n2", "X"⟩]⟩

/-- Witness for C2: on the sample store both reads succeed and the returned
`X` edge has both endpoint ids among the returned nodes. -/
theorem read_edges_closed_in_node_set_witness :
    (sampleDetails.nodes.any (fun n => n.id == "n1") = true ∧
      sampleDetails.nodes.any (fun n => n.id == "n2") = true) ∧
    (sampleDetails.nodes.any (fun n => n.id == "n1") = true ∧
      sampleDetails.nodes.any (fun n => n.id == "n2") = true) :=
  ⟨(read_edges_closed_in_node_set sampleStore "E" sampleDetails).1 (by decide)
      ⟨"n1", "n2", "X"⟩ (by decide),
   (read_edges_closed_in_node_set sampleStore "E" sampleDetails).2 (by decide)
      ⟨"n1", "n2", "X"⟩ (by decide)⟩

/-- Counterexample for **C4** as stated: in the router variant
(`src/routers/notes.py`), deleting experiment `E` — which owns flow node
`n1` via a `CONTAINS` relationship — succeeds but leaves the flow node in
the store: the query detach-deletes only the experiment node. -/
theorem router_delete_leaves_owned_flownode :
    (NotesRouter.delete_note_by_uuid sampleStore "E").2 = .ok () ∧
    (⟨1, 2, "CONTAINS"⟩ : GRel) ∈ sampleStore.rels ∧
    (⟨2, ["Substances"], [("id", "n1"), ("Node Name", "a")]⟩ : GNode) ∈
      (NotesRouter.delete_note_by_uuid sampleStore "E").1.nodes := by
  decide

/-- **C4** (corrected).  Deleting an existing experiment removes the
experiment node in both variants, and a subsequent get of the same id
returns NotFound in both; but only the monolith's delete also removes the
owned flow nodes (the router leaves them orphaned), and deleting a
nonexistent id yields a 404 only in the router variant (the monolith wraps
its 404 into a 500 through the catch-all handler). -/
theorem delete_cascade_by_variant (s : Store) (u : String)
    (hnd : (s.nodes.map GNode.nid).Nodup) :
    ((∀ d, NotesRouter.delete_note_by_uuid s u = (d, .ok ()) →
        (∀ n ∈ d.nodes, isExpWithId n u = false) ∧
        (∀ n ∈ s.nodes, isExpWithId n u = false → n ∈ d.nodes) ∧
        NotesRouter.get_note_by_uuid d u = .error ⟨404, "note not found"⟩) ∧
      ((∀ n ∈ s.nodes, isExpWithId n u = false) →
        NotesRouter.delete_note_by_uuid s u =
          (s, .error ⟨404, "Experiment not found to delete"⟩))) ∧
    ((∀ d, MainApp.delete_note s u = (d, .ok ()) →
        (∀ n ∈ d.nodes, isExpWithId n u = false) ∧
        (∀ n ∈ d.nodes, ∀ r ∈ s.rels, r.typ = "HAS_NODE" →
          (∃ m ∈ s.nodes, isExpWithId m u = true ∧ r.src = m.nid) → r.tgt ≠ n.nid) ∧
        MainApp.get_note d u = .error ⟨404, "note not found"⟩) ∧
      ((∀ n ∈ s.nodes, isExpWithId n u = false) →
        MainApp.delete_note s u =
          (s, .error ⟨500, "database error: 404: note not found"⟩))) := by
  have contains_mem : ∀ (l : List Nat) (a : Nat), l.contains a = true ↔ a ∈ l := by
    intro l a
    simp [List.contains]
  refine ⟨⟨?_, ?_⟩, ⟨?_, ?_⟩⟩
  · -- router, successful delete
    intro d hdel
    simp only [NotesRouter.delete_note_by_uuid] at hdel
    split at hdel
    · cases hdel
    · rename_i hne
      cases hdel
      have hno : ∀ n ∈ (detachDeleteNids s
          ((s.nodes.filter (fun n => isExpWithId n u)).map (·.nid))).nodes,
          isExpWithId n u = false := by
        intro n hn
        have h1 := List.mem_filter.mp hn
        by_contra hx
        have hx2 : isExpWithId n u = true := by
          cases h : isExpWithId n u
          · exact absurd h hx
          · rfl
        have hmemf : n ∈ s.nodes.filter (fun n => isExpWithId n u) :=
          List.mem_filter.mpr ⟨h1.1, hx2⟩
        have hmid : n.nid ∈ (s.nodes.filter (fun n => isExpWithId n u)).map (·.nid) :=
          List.mem_map.mpr ⟨n, hmemf, rfl⟩
        have := h1.2
        rw [(contains_mem _ _).mpr hmid] at this
        cases this
      refine ⟨hno, ?_, ?_⟩
      · -- every non-matching node survives
        intro n hn hfalse
        apply List.mem_filter.mpr
        refine ⟨hn, ?_⟩
        by_contra hx
        have hx2 : ((s.nodes.filter (fun n => isExpWithId n u)).map (·.nid)).contains n.nid = true := by
          cases h : ((s.nodes.filter (fun n => isExpWithId n u)).map (·.nid)).contains n.nid
          · rw [h] at hx; exact absurd rfl hx
          · rfl
        obtain ⟨m, hm, hmn⟩ := List.mem_map.mp ((contains_mem _ _).mp hx2)
        have h2 := List.mem_filter.mp hm
        have heq : m = n := List.inj_on_of_nodup_map hnd h2.1 hn hmn
        rw [heq] at h2
        rw [h2.2] at hfalse
        cases hfalse
      · -- re-reading yields 404
        have hfil : ((detachDeleteNids s
            ((s.nodes.filter (fun n => isExpWithId n u)).map (·.nid))).nodes.filter
              (fun n => isExpWithId n u)) = [] := by
          rw [List.filter_eq_nil_iff]
          intro n hn
          rw [hno n hn]
          simp
        simp only [NotesRouter.get_note_by_uuid, hfil, List.find?_nil]
  · -- router, nonexistent id
    intro hall
    have hfil : s.nodes.filter (fun n => isExpWithId n u) = [] := by
      rw [List.filter_eq_nil_iff]
      intro n hn
      rw [hall n hn]
      simp
    simp [NotesRouter.delete_note_by_uuid, hfil]
  · -- monolith, successful delete
    intro d hdel
    simp only [MainApp.delete_note] at hdel
    split at hdel
    · cases hdel
    · rename_i hne
      cases hdel
      have hno : ∀ n ∈ (detachDeleteNids s
          (((s.nodes.filter (fun n => isExpWithId n u)).map (·.nid)) ++
           ((s.rels.filter (fun r => r.typ == "HAS_NODE" &&
             ((s.nodes.filter (fun n => isExpWithId n u)).map (·.nid)).contains r.src)).map (·.tgt)))).nodes,
          isExpWithId n u = false := by
        intro n hn
        have h1 := List.mem_filter.mp hn
        by_contra hx
        have hx2 : isExpWithId n u = true := by
          cases h : isExpWithId n u
          · exact absurd h hx
          · rfl
        have hmemf : n ∈ s.nodes.filter (fun n => isExpWithId n u) :=
          List.mem_filter.mpr ⟨h1.1, hx2⟩
        have hmid : n.nid ∈ (s.nodes.filter (fun n => isExpWithId n u)).map (·.nid) :=
          List.mem_map.mpr ⟨n, hmemf, rfl⟩
        have := h1.2
        rw [(contains_mem _ _).mpr (List.mem_append_left _ hmid)] at this
        cases this
      refine ⟨hno, ?_, ?_⟩
      · -- every owned flow node is gone
        intro n hn r hr htyp hsrc
        obtain ⟨m, hm, hexp, hrsrc⟩ := hsrc
        intro htgt
        have h1 := List.mem_filter.mp hn
        have hmid : m.nid ∈ (s.nodes.filter (fun n => isExpWithId n u)).map (·.nid) :=
          List.mem_map.mpr ⟨m, List.mem_filter.mpr ⟨hm, hexp⟩, rfl⟩
        have hrmem : r ∈ s.rels.filter (fun r => r.typ == "HAS_NODE" &&
            ((s.nodes.filter (fun n => isExpWithId n u)).map (·.nid)).contains r.src) := by
          apply List.mem_filter.mpr
          refine ⟨hr, ?_⟩
          rw [htyp]
          rw [hrsrc]
          rw [(contains_mem _ _).mpr hmid]
          simp
        have htmem : r.tgt ∈ (s.rels.filter (fun r => r.typ == "HAS_NODE" &&
            ((s.nodes.filter (fun n => isExpWithId n u)).map (·.nid)).contains r.src)).map (·.tgt) :=
          List.mem_map.mpr ⟨r, hrmem, rfl⟩
        have := h1.2
        rw [htgt] at htmem
        rw [(contains_mem _ _).mpr (List.mem_append_right _ htmem)] at this
        cases this
      · -- re-reading yields 404
        have hfil : ((detachDeleteNids s
            (((s.nodes.filter (fun n => isExpWithId n u)).map (·.nid)) ++
             ((s.rels.filter (fun r => r.typ == "HAS_NODE" &&
               ((s.nodes.filter (fun n => isExpWithId n u)).map (·.nid)).contains r.src)).map (·.tgt)))).nodes.filter
              (fun n => isExpWithId n u)) = [] := by
          rw [List.filter_eq_nil_iff]
          intro n hn
          rw [hno n hn]
          simp
        simp only [MainApp.get_note, hfil, List.filterMap_nil, List.find?_nil]
  · -- monolith, nonexistent id
    intro hall
    have hfil : s.nodes.filter (fun n => isExpWithId n u) = [] := by
      rw [List.filter_eq_nil_iff]
      intro n hn
      rw [hall n hn]
      simp
    simp [MainApp.delete_note, hfil]

/-- The store left by the router's delete of `E` on the sample store. -/
def routerDeletedStore : Store :=
  ⟨[⟨0, ["Project"], [("name", "P")]⟩,
    ⟨2, ["Substances"], [("id", "n1"), ("Node Name", "a")]⟩,
    ⟨3, ["Measurement"], [("id", "n2"), ("Node Name", "b")]⟩],
   [⟨2, 3, "X"⟩], 4⟩

/-- The store left by the monolith's delete of `E` on the sample store. -/
def mainDeletedStore : Store :=
  ⟨[⟨0, ["Project"], [("name", "P")]⟩], [], 4⟩

/-- Witness for the amended C4 on concrete stores: both variants' deletes
succeed on the sample store and the re-reads 404, and the nonexistent-id
deletes answer 404 (router) and 500 (monolith) on the empty store. -/
theorem delete_cascade_by_variant_witness :
    NotesRouter.get_note_by_uuid routerDeletedStore "E" = .error ⟨404, "note not found"⟩ ∧
    NotesRouter.delete_note_by_uuid Store.empty "E" =
      (Store.empty, .error ⟨404, "Experiment not found to delete"⟩) ∧
    MainApp.get_note mainDeletedStore "E" = .error ⟨404, "note not found"⟩ ∧
    MainApp.delete_note Store.empty "E" =
      (Store.empty, .error ⟨500, "database error: 404: note not found"⟩) :=
  ⟨(((delete_cascade_by_variant sampleStore "E" (by decide)).1.1
      routerDeletedStore (by decide))).2.2,
   (delete_cascade_by_variant Store.empty "E" (by decide)).1.2 (by decide),
   (((delete_cascade_by_variant sampleStore "E" (by decide)).2.1
      mainDeletedStore (by decide))).2.2,
   (delete_cascade_by_variant Store.empty "E" (by decide)).2.2 (by decide)⟩

/-! ### The state created by the router's create (helper lemmas) -/

/-- The fresh nodes created for a spec list, with consecutive identities
starting at `base`. -/
def mkGNodes (base : Nat) : List (List String × Props) → List GNode
  | [] => []
  | sp :: rest => ⟨base, sp.1, sp.2⟩ :: mkGNodes (base + 1) rest

theorem NotesRouter.addNodes_eq :
    ∀ (specs : List (List String × Props)) (s : Store),
      NotesRouter.addNodes s specs =
        { nodes := s.nodes ++ mkGNodes s.nextId specs, rels := s.rels,
          nextId := s.nextId + specs.length } := by
  intro specs
  induction specs with
  | nil => intro s; simp [NotesRouter.addNodes, mkGNodes]
  | cons sp rest ih =>
    intro s
    rw [show NotesRouter.addNodes s (sp :: rest) =
          NotesRouter.addNodes (addNode s sp.1 sp.2) rest from rfl]
    rw [ih]
    simp only [addNode, mkGNodes, List.length_cons, Store.mk.injEq,
      List.append_assoc, List.singleton_append, List.cons_append,
      List.nil_append, true_and, and_true]
    omega

theorem NotesRouter.runRels_noFault :
    ∀ (l : List GRel) (k : Nat) (s : Store),
      NotesRouter.runRels noFault k s l = .ok { s with rels := s.rels ++ l } := by
  intro l
  induction l with
  | nil => intro k s; simp [NotesRouter.runRels]
  | cons rl rest ih =>
    intro k s
    simp only [NotesRouter.runRels, noFault, Bool.false_eq_true, if_false]
    rw [ih]
    simp [addRel, List.append_assoc]

/-- The state and response of a successful fault-free router create. -/
theorem NotesRouter.create_ok (s : Store) (r : Request) (expId : String)
    (hv : requestValid r = true)
    (hid : (r.nodes.any (fun n => (n.props.lookup "id").isSome)) = false) :
    NotesRouter.create_note noFault s r expId =
      ({ nodes := s.nodes ++ mkGNodes s.nextId (NotesRouter.nodeSpecs r expId),
         rels := s.rels ++ NotesRouter.relList r s.nextId,
         nextId := s.nextId + (NotesRouter.nodeSpecs r expId).length },
       .ok (NotesRouter.createResponse r expId)) := by
  simp only [NotesRouter.create_note, hv, hid, noFault, Bool.not_true,
    Bool.false_eq_true, if_false]
  rw [NotesRouter.addNodes_eq, NotesRouter.runRels_noFault]

theorem length_filterMap_eq_length_filter (f : α → Option β) :
    ∀ l : List α, (l.filterMap f).length = (l.filter (fun x => (f x).isSome)).length := by
  intro l
  induction l with
  | nil => rfl
  | cons a as ih => cases hfa : f a <;> simp [List.filterMap_cons, hfa, ih]

/-- Every relationship the router's create adds points between identities at
or above the initial `nextId` — i.e. between nodes of this request only. -/
theorem NotesRouter.relList_bounds (r : Request) (base : Nat) :
    ∀ rl ∈ NotesRouter.relList r base, base ≤ rl.src ∧ base ≤ rl.tgt := by
  intro rl hrl
  rcases List.mem_append.mp hrl with hc | he
  · obtain ⟨j, _, hj⟩ := List.mem_map.mp hc
    rw [← hj]
    exact ⟨Nat.le_refl base, show base ≤ base + 1 + j by omega⟩
  · obtain ⟨e, _, hmk⟩ := List.mem_filterMap.mp he
    cases h1 : NotesRouter.idxOfLast r.nodes e.source_id with
    | none => rw [h1] at hmk; cases hmk
    | some i =>
      cases h2 : NotesRouter.idxOfLast r.nodes e.target_id with
      | none => rw [h1, h2] at hmk; cases hmk
      | some j =>
        rw [h1, h2] at hmk
        cases hmk
        exact ⟨show base ≤ base + 1 + i by omega,
               show base ≤ base + 1 + j by omega⟩

/-- A store already holding a `Substances` node with id `n2` that belongs
to no experiment — an "outside" node for the next request. -/
def foreignNodeStore : Store :=
  ⟨[⟨0, ["Substances"], [("id", "n2"), ("Node Name", "foreign")]⟩], [], 1⟩

/-- Counterexample for **C6** as stated: the monolith's create
(`src/main.py`) resolves edge endpoints by `id` property over the *whole
store*.  On a store already holding a node with id `n2` (identity 0,
belonging to no experiment of this request), the request declaring only
node `n1` plus the edge `n1 → n2` succeeds and creates an `X` relationship
from the fresh `n1` node (identity 3) to the pre-existing outside node —
the edge is neither omitted nor scoped to the request's nodes. -/
theorem main_create_links_edge_to_outside_node :
    (MainApp.create_note noFault foreignNodeStore danglingEdgeReq "E1").2 = .ok "E1" ∧
    (⟨0, ["Substances"], [("id", "n2"), ("Node Name", "foreign")]⟩ : GNode) ∈
      foreignNodeStore.nodes ∧
    (⟨3, 0, "X"⟩ : GRel) ∈
      (MainApp.create_note noFault foreignNodeStore danglingEdgeReq "E1").1.rels := by
  decide

/-- **C6** (corrected, router variant).  The router's create resolves edge
endpoints only against the request's own `node_map`: a successful create
adds exactly the request's fresh nodes, one `CONTAINS` link per declared
node, and one relationship per declared edge whose *both* endpoint ids
occur among the request's nodes; edges with a missing endpoint contribute
nothing (no error), and every added relationship connects identities at or
above the pre-create `nextId`, never a pre-existing node. -/
theorem router_create_edge_scoping (s : Store) (r : Request) (expId : String) :
    ∀ s' d, NotesRouter.create_note noFault s r expId = (s', .ok d) →
      s'.nodes = s.nodes ++ mkGNodes s.nextId (NotesRouter.nodeSpecs r expId) ∧
      s'.rels = s.rels ++ NotesRouter.relList r s.nextId ∧
      (∀ rl ∈ s'.rels, rl ∈ s.rels ∨ (s.nextId ≤ rl.src ∧ s.nextId ≤ rl.tgt)) ∧
      s'.rels.length = s.rels.length + r.nodes.length +
        (r.edges.filter (fun e => (NotesRouter.idxOfLast r.nodes e.source_id).isSome &&
          (NotesRouter.idxOfLast r.nodes e.target_id).isSome)).length := by
  intro s' d h
  cases hv : requestValid r with
  | false => simp only [NotesRouter.create_note, hv] at h; cases h
  | true =>
    cases hid : r.nodes.any (fun n => (n.props.lookup "id").isSome) with
    | true =>
      simp only [NotesRouter.create_note, hv, hid] at h
      cases h
    | false =>
      rw [NotesRouter.create_ok s r expId hv hid] at h
      injection h with h1 h2
      rw [← h1]
      refine ⟨rfl, rfl, ?_, ?_⟩
      · intro rl hrl
        rcases List.mem_append.mp hrl with hold | hnew
        · exact Or.inl hold
        · exact Or.inr (NotesRouter.relList_bounds r s.nextId rl hnew)
      · simp only [NotesRouter.relList, List.length_append, List.length_map,
          List.length_range]
        rw [length_filterMap_eq_length_filter]
        have hcong : ∀ e ∈ r.edges,
            ((match NotesRouter.idxOfLast r.nodes e.source_id,
                    NotesRouter.idxOfLast r.nodes e.target_id with
              | some i, some j =>
                some (⟨s.nextId + 1 + i, s.nextId + 1 + j, e.typ⟩ : GRel)
              | _, _ => none).isSome) =
            ((NotesRouter.idxOfLast r.nodes e.source_id).isSome &&
             (NotesRouter.idxOfLast r.nodes e.target_id).isSome) := by
          intro e _
          cases NotesRouter.idxOfLast r.nodes e.source_id <;>
            cases NotesRouter.idxOfLast r.nodes e.target_id <;> rfl
        rw [List.filter_congr hcong]
        omega

/-- The store produced by the fault-free router create of
`danglingEdgeReq` on the empty store. -/
def routerCreatedStore : Store :=
  ⟨[⟨0, ["Experiment"],
     [("id", "E9"), ("project_name", "P"), ("folder_path", "/"),
      ("experiment_name", "exp"), ("registrant", "alice"),
      ("registration_date", "2024-01-01")]⟩,
    ⟨1, ["Substances"], [("id", "n1"), ("Node Name", "a")]⟩],
   [⟨0, 1, "CONTAINS"⟩], 2⟩

/-- Witness for the amended C6: creating `danglingEdgeReq` (node `n1`, edge
`n1 → n2` with `n2` undeclared) on the empty store stores one `CONTAINS`
link and zero request edges, while the node `n1` is still created. -/
theorem router_create_edge_scoping_witness :
    routerCreatedStore.nodes =
      Store.empty.nodes ++ mkGNodes Store.empty.nextId
        (NotesRouter.nodeSpecs danglingEdgeReq "E9") ∧
    routerCreatedStore.rels.length =
      Store.empty.rels.length + danglingEdgeReq.nodes.length +
        (danglingEdgeReq.edges.filter (fun e =>
          (NotesRouter.idxOfLast danglingEdgeReq.nodes e.source_id).isSome &&
          (NotesRouter.idxOfLast danglingEdgeReq.nodes e.target_id).isSome)).length := by
  have h := router_create_edge_scoping Store.empty danglingEdgeReq "E9"
    routerCreatedStore (NotesRouter.createResponse danglingEdgeReq "E9") (by decide)
  exact ⟨h.1, h.2.2.2⟩

/-- Counterexample for **C9** as stated: the router's create response echoes
the request, so the edge `n1 → n2` — omitted during creation because `n2`
is not among the request's nodes — still appears in the create response,
while the stored state holds only the `CONTAINS` link. -/
theorem create_response_echoes_omitted_edge :
    (NotesRouter.create_note noFault Store.empty danglingEdgeReq "E9").2 =
      .ok ⟨"E9", "P", "/", "exp", "alice", "2024-01-01",
           [⟨"n1", "Substances", [("Node Name", "a")]⟩], [⟨"n1", "n2", "X"⟩]⟩ ∧
    (NotesRouter.create_note noFault Store.empty danglingEdgeReq "E9").1.rels =
      [⟨0, 1, "CONTAINS"⟩] := by
  decide

/-- **C9** (corrected).  The router's successful create response is the
request echoed verbatim plus the generated id — its node and edge lists
mirror the *request*, not the stored shape, so an edge omitted during
creation still appears; the monolith's create returns only the generated
experiment id (with a fixed message). -/
theorem create_response_shape (fault : Nat → Bool) (s : Store) (r : Request)
    (expId : String) :
    (∀ s' d, NotesRouter.create_note fault s r expId = (s', .ok d) →
      d.id = expId ∧ d.project_name = r.project_name ∧
      d.folder_path = r.folder_path ∧ d.experiment_name = r.experiment_name ∧
      d.registrant = r.registrant ∧ d.registration_date = r.registration_date ∧
      d.nodes = r.nodes.map (fun n => ⟨n.id, n.category, n.props⟩) ∧
      d.edges = r.edges.map (fun e => ⟨e.source_id, e.target_id, e.typ⟩)) ∧
    (∀ s' v, MainApp.create_note fault s r expId = (s', .ok v) → v = expId) := by
  constructor
  · intro s' d h
    simp only [NotesRouter.create_note] at h
    split at h
    · injection h with h1 h2; cases h2
    · split at h
      · injection h with h1 h2; cases h2
      · split at h
        · injection h with h1 h2; cases h2
        · split at h
          · injection h with h1 h2; cases h2
          · injection h with h1 h2
            injection h2 with h3
            rw [← h3]
            exact ⟨rfl, rfl, rfl, rfl, rfl, rfl, rfl, rfl⟩
  · intro s' v h
    simp only [MainApp.create_note] at h
    split at h
    · injection h with h1 h2; cases h2
    · split at h
      · injection h with h1 h2; cases h2
      · split at h
        · injection h with h1 h2; cases h2
        · injection h with h1 h2
          injection h2 with h3
          exact h3.symm

/-- Witness for the amended C9: the concrete response of creating
`danglingEdgeReq` on the empty store echoes the request's node and edge
lists, and the monolith returns the bare id. -/
theorem create_response_shape_witness :
    (NotesRouter.createResponse danglingEdgeReq "E9").edges =
      danglingEdgeReq.edges.map (fun e => ⟨e.source_id, e.target_id, e.typ⟩) ∧
    (NotesRouter.createResponse danglingEdgeReq "E9").nodes =
      danglingEdgeReq.nodes.map (fun n => ⟨n.id, n.category, n.props⟩) := by
  have h := (create_response_shape noFault Store.empty danglingEdgeReq "E9").1
    routerCreatedStore (NotesRouter.createResponse danglingEdgeReq "E9") (by decide)
  exact ⟨h.2.2.2.2.2.2.2, h.2.2.2.2.2.2.1⟩

/-! ### Round-trip lemmas for the router's create/read pair -/

/-- The fresh flow nodes of one router create, with identities starting at
`base`. -/
def flowNodes (base : Nat) (ns : List ReqNode) : List GNode :=
  mkGNodes base (ns.map (fun n => ([n.category], ("id", n.id) :: n.props)))

theorem flowNodes_cons (b : Nat) (n : ReqNode) (ns : List ReqNode) :
    flowNodes b (n :: ns) =
      ⟨b, [n.category], ("id", n.id) :: n.props⟩ :: flowNodes (b + 1) ns := rfl

theorem mkGNodes_length :
    ∀ (l : List (List String × Props)) (b : Nat), (mkGNodes b l).length = l.length := by
  intro l
  induction l with
  | nil => intro b; rfl
  | cons sp rest ih => intro b; simp [mkGNodes, ih]

theorem flowNodes_length (b : Nat) (ns : List ReqNode) :
    (flowNodes b ns).length = ns.length := by
  simp [flowNodes, mkGNodes_length]

theorem flowNodes_nid_ge :
    ∀ (ns : List ReqNode) (b : Nat), ∀ m ∈ flowNodes b ns, b ≤ m.nid := by
  intro ns
  induction ns with
  | nil => intro b m hm; cases hm
  | cons n ns ih =>
    intro b m hm
    rw [flowNodes_cons] at hm
    cases hm with
    | head => exact Nat.le_refl b
    | tail _ hm2 => exact Nat.le_trans (by omega) (ih (b + 1) m hm2)

/-- Within one request's fresh flow nodes, looking up a member's identity
finds exactly that member (identities are consecutive, hence distinct). -/
theorem flowNodes_find_self :
    ∀ (ns : List ReqNode) (b : Nat), ∀ m ∈ flowNodes b ns,
      (flowNodes b ns).find? (fun n => n.nid == m.nid) = some m := by
  intro ns
  induction ns with
  | nil => intro b m hm; cases hm
  | cons n ns ih =>
    intro b m hm
    rw [flowNodes_cons] at hm
    cases hm with
    | head =>
      rw [flowNodes_cons, List.find?_cons]
      simp
    | tail _ hm2 =>
      have hge : b + 1 ≤ m.nid := flowNodes_nid_ge ns (b + 1) m hm2
      rw [flowNodes_cons, List.find?_cons]
      have hb : ((⟨b, [n.category], ("id", n.id) :: n.props⟩ : GNode).nid == m.nid) = false := by
        have : b ≠ m.nid := by omega
        exact beq_eq_false_iff_ne.mpr this
      rw [hb]
      exact ih (b + 1) m hm2

/-- No category of the closed set is the `Experiment` label. -/
theorem category_beq_experiment {c : String} (h : categories.contains c = true) :
    ("Experiment" == c) = false ∧ (c == "Experiment") = false := by
  have hm : c ∈ categories := by simpa [List.contains] using h
  simp [categories] at hm
  rcases hm with rfl | rfl | rfl | rfl <;> exact ⟨rfl, rfl⟩

/-- Fresh flow nodes never pass the experiment filter. -/
theorem flowNodes_filter_exp (expId : String) :
    ∀ (ns : List ReqNode) (b : Nat),
      (∀ n ∈ ns, categories.contains n.category = true) →
      (flowNodes b ns).filter (fun m => isExpWithId m expId) = [] := by
  intro ns
  induction ns with
  | nil => intro b _; rfl
  | cons n ns ih =>
    intro b hcats
    rw [flowNodes_cons, List.filter_cons]
    have hlab : hasLabel (⟨b, [n.category], ("id", n.id) :: n.props⟩ : GNode) "Experiment" = false := by
      have := (category_beq_experiment (hcats n (List.mem_cons_self ..))).1
      simp [hasLabel, List.contains]
      exact beq_eq_false_iff_ne.mp this
    have hexp : isExpWithId (⟨b, [n.category], ("id", n.id) :: n.props⟩ : GNode) expId = false := by
      simp [isExpWithId, hlab]
    rw [hexp]
    simp only [Bool.false_eq_true, if_false]
    exact ih (b + 1) (fun m hm => hcats m (List.mem_cons_of_mem _ hm))

/-- A property map without an `id` key is untouched by the read path's
`id`-stripping filter. -/
theorem filter_id_of_lookup_none :
    ∀ ps : Props, ps.lookup "id" = none →
      ps.filter (fun kv => kv.1 != "id") = ps := by
  intro ps
  induction ps with
  | nil => intro _; rfl
  | cons kv rest ih =>
    intro h
    rw [List.lookup] at h
    cases hk : ("id" == kv.1) with
    | true => rw [hk] at h; cases h
    | false =>
      rw [hk] at h
      rw [List.filter_cons]
      have : (kv.1 != "id") = true := by
        have hne : "id" ≠ kv.1 := beq_eq_false_iff_ne.mp hk
        simp [bne, beq_eq_false_iff_ne.mpr (Ne.symm hne)]
      rw [this]
      simp only [if_true]
      rw [ih h]

/-- The store after a successful fault-free router create. -/
def createdStore (s : Store) (r : Request) (expId : String) : Store :=
  { nodes := s.nodes ++ mkGNodes s.nextId (NotesRouter.nodeSpecs r expId),
    rels := s.rels ++ NotesRouter.relList r s.nextId,
    nextId := s.nextId + (NotesRouter.nodeSpecs r expId).length }

/-- The `Experiment` node a router create stores. -/
def expGNode (s : Store) (r : Request) (expId : String) : GNode :=
  ⟨s.nextId, ["Experiment"],
   [("id", expId), ("project_name", r.project_name), ("folder_path", r.folder_path),
    ("experiment_name", r.experiment_name), ("registrant", r.registrant),
    ("registration_date", r.registration_date)]⟩

theorem createdStore_nodes (s : Store) (r : Request) (expId : String) :
    (createdStore s r expId).nodes =
      s.nodes ++ expGNode s r expId :: flowNodes (s.nextId + 1) r.nodes := rfl

theorem createdStore_rels (s : Store) (r : Request) (expId : String) :
    (createdStore s r expId).rels = s.rels ++ NotesRouter.relList r s.nextId := rfl

/-- Collecting `look (b + j)` for `j < ns.length` yields exactly the flow
nodes when `look` finds each of them by its identity. -/
theorem filterMap_look_flowNodes (look : Nat → Option GNode) :
    ∀ (ns : List ReqNode) (b : Nat),
      (∀ m ∈ flowNodes b ns, look m.nid = some m) →
      (List.range ns.length).filterMap (fun j => look (b + j)) = flowNodes b ns := by
  intro ns
  induction ns with
  | nil => intro b _; rfl
  | cons n ns ih =>
    intro b h
    have h0 : look (b + 0) = some ⟨b, [n.category], ("id", n.id) :: n.props⟩ := by
      have := h ⟨b, [n.category], ("id", n.id) :: n.props⟩
        (by rw [flowNodes_cons]; exact List.mem_cons_self ..)
      simpa using this
    have hfun : ∀ j ∈ List.range ns.length,
        look (b + (j + 1)) = look ((b + 1) + j) := by
      intro j _
      congr 1
      omega
    rw [List.length_cons, List.range_succ_eq_map, List.filterMap_cons]
    simp only [h0, List.filterMap_map, Function.comp_def, Nat.succ_eq_add_one]
    rw [List.filterMap_congr hfun]
    rw [ih (b + 1) (fun m hm => h m (by rw [flowNodes_cons]; exact List.mem_cons_of_mem _ hm))]
    rw [flowNodes_cons]

/-- In the created store, each fresh flow node is found by its identity. -/
theorem nodeById_created_flow (s : Store) (r : Request) (expId : String)
    (hwf : Store.WF s) :
    ∀ m ∈ flowNodes (s.nextId + 1) r.nodes,
      nodeById (createdStore s r expId) m.nid = some m := by
  intro m hm
  have hge : s.nextId + 1 ≤ m.nid := flowNodes_nid_ge _ _ m hm
  unfold nodeById
  rw [createdStore_nodes, List.find?_append]
  have hA : s.nodes.find? (fun n => n.nid == m.nid) = none := by
    rw [List.find?_eq_none]
    intro n hn hx
    have h1 := hwf.1 n hn
    have h2 : n.nid = m.nid := by simpa using hx
    omega
  rw [hA]
  have hexpne : ((expGNode s r expId).nid == m.nid) = false :=
    beq_eq_false_iff_ne.mpr (show s.nextId ≠ m.nid by omega)
  rw [List.find?_cons, hexpne]
  simpa using flowNodes_find_self _ _ m hm

/-- Reading the contained nodes of the fresh experiment yields exactly the
request's flow nodes, in order. -/
theorem containedBy_created (s : Store) (r : Request) (expId : String)
    (hwf : Store.WF s) :
    containedBy (createdStore s r expId) s.nextId "CONTAINS" =
      flowNodes (s.nextId + 1) r.nodes := by
  unfold containedBy
  rw [createdStore_rels, List.filter_append]
  have hold : s.rels.filter (fun rl => rl.typ == "CONTAINS" && rl.src == s.nextId) = [] := by
    rw [List.filter_eq_nil_iff]
    intro rl hrl hx
    have h1 := (hwf.2 rl hrl).1
    have h2 : rl.src = s.nextId := by
      have := (Bool.and_eq_true _ _).mp hx
      simpa using this.2
    omega
  rw [hold, List.nil_append]
  have hfil : (NotesRouter.relList r s.nextId).filter
      (fun rl => rl.typ == "CONTAINS" && rl.src == s.nextId) =
      (List.range r.nodes.length).map
        (fun j => (⟨s.nextId, s.nextId + 1 + j, "CONTAINS"⟩ : GRel)) := by
    unfold NotesRouter.relList
    rw [List.filter_append]
    have h1 : ((List.range r.nodes.length).map
        (fun j => (⟨s.nextId, s.nextId + 1 + j, "CONTAINS"⟩ : GRel))).filter
        (fun rl => rl.typ == "CONTAINS" && rl.src == s.nextId) =
        (List.range r.nodes.length).map
          (fun j => (⟨s.nextId, s.nextId + 1 + j, "CONTAINS"⟩ : GRel)) := by
      rw [List.filter_eq_self]
      intro rl hrl
      obtain ⟨j, _, hj⟩ := List.mem_map.mp hrl
      rw [← hj]
      simp
    have h2 : (r.edges.filterMap (fun e =>
        match NotesRouter.idxOfLast r.nodes e.source_id,
              NotesRouter.idxOfLast r.nodes e.target_id with
        | some i, some j =>
          some (⟨s.nextId + 1 + i, s.nextId + 1 + j, e.typ⟩ : GRel)
        | _, _ => none)).filter
        (fun rl => rl.typ == "CONTAINS" && rl.src == s.nextId) = [] := by
      rw [List.filter_eq_nil_iff]
      intro rl hrl hx
      obtain ⟨e, _, hmk⟩ := List.mem_filterMap.mp hrl
      cases hi : NotesRouter.idxOfLast r.nodes e.source_id with
      | none => rw [hi] at hmk; cases hmk
      | some i =>
        cases hj : NotesRouter.idxOfLast r.nodes e.target_id with
        | none => rw [hi, hj] at hmk; cases hmk
        | some j =>
          rw [hi, hj] at hmk
          cases hmk
          have hsrc : s.nextId + 1 + i = s.nextId := by
            have := (Bool.and_eq_true _ _).mp hx
            simpa using this.2
          omega
    rw [h1, h2, List.append_nil]
  rw [hfil, List.filterMap_map]
  have hlook := filterMap_look_flowNodes (fun v => nodeById (createdStore s r expId) v)
    r.nodes (s.nextId + 1) (nodeById_created_flow s r expId hwf)
  simpa [Function.comp] using hlook

/-- With no declared edges, the induced subgraph over the fresh flow nodes
is empty: old relationships point below the fresh identities and the new
`CONTAINS` links start at the experiment node. -/
theorem induced_created_empty (s : Store) (r : Request) (expId : String)
    (hwf : Store.WF s) (hnoedge : r.edges = []) :
    inducedEdges (flowNodes (s.nextId + 1) r.nodes) (createdStore s r expId).rels = [] := by
  unfold inducedEdges
  rw [createdStore_rels, List.filter_append]
  have hsrc_false : ∀ v, v ≤ s.nextId →
      (flowNodes (s.nextId + 1) r.nodes).any (fun n => n.nid == v) = false := by
    intro v hv
    rw [List.any_eq_false]
    intro m hm hx
    have h1 := flowNodes_nid_ge _ _ m hm
    have h2 : m.nid = v := by simpa using hx
    omega
  have hold : s.rels.filter (fun rl =>
      (flowNodes (s.nextId + 1) r.nodes).any (fun n => n.nid == rl.src) &&
      (flowNodes (s.nextId + 1) r.nodes).any (fun n => n.nid == rl.tgt)) = [] := by
    rw [List.filter_eq_nil_iff]
    intro rl hrl hx
    have h1 := (hwf.2 rl hrl).1
    have := (Bool.and_eq_true _ _).mp hx
    rw [hsrc_false rl.src (by omega)] at this
    cases this.1
  have hnew : (NotesRouter.relList r s.nextId).filter (fun rl =>
      (flowNodes (s.nextId + 1) r.nodes).any (fun n => n.nid == rl.src) &&
      (flowNodes (s.nextId + 1) r.nodes).any (fun n => n.nid == rl.tgt)) = [] := by
    rw [List.filter_eq_nil_iff]
    intro rl hrl hx
    unfold NotesRouter.relList at hrl
    rw [hnoedge] at hrl
    simp only [List.filterMap_nil, List.append_nil] at hrl
    obtain ⟨j, _, hj⟩ := List.mem_map.mp hrl
    have := (Bool.and_eq_true _ _).mp hx
    rw [← hj] at this
    rw [hsrc_false s.nextId (Nat.le_refl _)] at this
    cases this.1
  rw [hold, hnew]
  rfl

/-- Reading back one fresh flow node reproduces its request declaration. -/
theorem mkRespNode_flow (n : ReqNode) (b : Nat)
    (hval : nodeValid n = true) (hid : n.props.lookup "id" = none) :
    NotesRouter.mkRespNode ⟨b, [n.category], ("id", n.id) :: n.props⟩ =
      .ok ⟨n.id, n.category, n.props⟩ := by
  have hcat : categories.contains n.category = true := ((Bool.and_eq_true _ _).mp hval).1
  have hname : (n.props.lookup "Node Name").isSome = true := ((Bool.and_eq_true _ _).mp hval).2
  have hbne : (n.category != "Experiment") = true := by
    simp [bne, (category_beq_experiment hcat).2]
  have hgp : getProp (⟨b, [n.category], ("id", n.id) :: n.props⟩ : GNode) "id" = some n.id := by
    simp [getProp, List.lookup]
  have hfind : List.find? (fun l => l != "Experiment") [n.category] = some n.category := by
    simp [List.find?_cons, hbne]
  have hfilter : (("id", n.id) :: n.props).filter (fun kv => kv.1 != "id") = n.props := by
    rw [List.filter_cons]
    have : ((("id", n.id) : String × String).1 != "id") = false := by simp [bne]
    rw [this]
    simp only [Bool.false_eq_true, if_false]
    exact filter_id_of_lookup_none n.props hid
  have hnone : (n.props.lookup "Node Name").isNone = false := by
    cases h : n.props.lookup "Node Name" with
    | none => rw [h] at hname; cases hname
    | some v => rfl
  simp only [NotesRouter.mkRespNode, hgp, hfind, Option.getD_some, hfilter, hcat,
    Bool.not_true, Bool.false_eq_true, if_false, hnone]

/-- Reading back all fresh flow nodes reproduces the request's node list. -/
theorem exMap_mkRespNode_flowNodes :
    ∀ (ns : List ReqNode) (b : Nat),
      (∀ n ∈ ns, nodeValid n = true) →
      (∀ n ∈ ns, n.props.lookup "id" = none) →
      exMap NotesRouter.mkRespNode (flowNodes b ns) =
        .ok (ns.map (fun n => (⟨n.id, n.category, n.props⟩ : RespNode))) := by
  intro ns
  induction ns with
  | nil => intro b _ _; rfl
  | cons n ns ih =>
    intro b hval hid
    rw [flowNodes_cons]
    have hhead := mkRespNode_flow n b (hval n (List.mem_cons_self ..))
      (hid n (List.mem_cons_self ..))
    have htail := ih (b + 1) (fun m hm => hval m (List.mem_cons_of_mem _ hm))
      (fun m hm => hid m (List.mem_cons_of_mem _ hm))
    simp only [exMap, hhead, htail, List.map_cons]

/-- After a create on a store with no experiment of the fresh id, the read
query's experiment filter finds exactly the fresh experiment node. -/
theorem created_exps (s : Store) (r : Request) (expId : String)
    (hnoexp : ∀ n ∈ s.nodes, isExpWithId n expId = false)
    (hv : requestValid r = true) :
    (createdStore s r expId).nodes.filter (fun m => isExpWithId m expId) =
      [expGNode s r expId] := by
  rw [createdStore_nodes, List.filter_append]
  have hA : s.nodes.filter (fun m => isExpWithId m expId) = [] := by
    rw [List.filter_eq_nil_iff]
    intro n hn hx
    rw [hnoexp n hn] at hx
    cases hx
  have hexp : isExpWithId (expGNode s r expId) expId = true := by
    simp [isExpWithId, expGNode, hasLabel, hasPropVal, getProp, List.lookup, List.contains]
  have hcats : ∀ n ∈ r.nodes, categories.contains n.category = true := by
    intro n hn
    have := List.all_eq_true.mp hv n hn
    exact ((Bool.and_eq_true _ _).mp this).1
  rw [hA, List.nil_append, List.filter_cons, hexp]
  simp only [if_true]
  rw [flowNodes_filter_exp expId r.nodes (s.nextId + 1) hcats]

/-- **C7** (corrected, router variant): the round trip.  Creating an
experiment from a request with a non-empty node list and no edges on a
well-formed store holding no experiment of the fresh id, then reading it
back, returns exactly the request's node ids, categories, and properties —
undeclared property fields included, since the router's models allow and
pass through unknown keys — plus an empty edge list and the request's
metadata.  (Hypotheses: the request is valid, and no node declares a
property literally named `id`, which would collide with the py2neo `id`
keyword argument and fail the create.) -/
theorem router_roundtrip_preserves_nodes (s : Store) (r : Request) (expId : String)
    (hwf : Store.WF s)
    (hnoexp : ∀ n ∈ s.nodes, isExpWithId n expId = false)
    (hv : requestValid r = true)
    (hne : r.nodes ≠ [])
    (hnoid : ∀ n ∈ r.nodes, n.props.lookup "id" = none)
    (hnoedge : r.edges = []) :
    NotesRouter.get_note_by_uuid (NotesRouter.create_note noFault s r expId).1 expId =
      .ok ⟨expId, r.project_name, r.folder_path, r.experiment_name, r.registrant,
           r.registration_date,
           r.nodes.map (fun n => ⟨n.id, n.category, n.props⟩), []⟩ := by
  have hid : (r.nodes.any (fun n => (n.props.lookup "id").isSome)) = false := by
    rw [List.any_eq_false]
    intro n hn hx
    rw [hnoid n hn] at hx
    cases hx
  rw [NotesRouter.create_ok s r expId hv hid]
  show NotesRouter.get_note_by_uuid (createdStore s r expId) expId = _
  have hcont : containedBy (createdStore s r expId) (expGNode s r expId).nid "CONTAINS" =
      flowNodes (s.nextId + 1) r.nodes := containedBy_created s r expId hwf
  have hpred : (!(containedBy (createdStore s r expId) (expGNode s r expId).nid
      "CONTAINS").isEmpty) = true := by
    rw [hcont]
    cases hns : r.nodes with
    | nil => exact absurd hns hne
    | cons a as => rw [flowNodes_cons]; rfl
  have hfind : ([expGNode s r expId].find?
      (fun e => !(containedBy (createdStore s r expId) e.nid "CONTAINS").isEmpty)) =
      some (expGNode s r expId) := by
    simp only [List.find?_cons, hpred]
  have hvn : ∀ n ∈ r.nodes, nodeValid n = true := fun n hn => List.all_eq_true.mp hv n hn
  have hnodes := exMap_mkRespNode_flowNodes r.nodes (s.nextId + 1) hvn hnoid
  have hedges := induced_created_empty s r expId hwf hnoedge
  simp only [NotesRouter.get_note_by_uuid, created_exps s r expId hnoexp hv, hfind,
    hcont, hnodes, hedges, exMap]
  rfl

/-- A request whose single node carries the undeclared property `Extra`. -/
def extraFieldReq : Request :=
  ⟨"P", "/", "exp", "alice", "2024-01-01",
   [⟨"n1", "Substances", [("Node Name", "a"), ("Extra", "x")]⟩], []⟩

/-- Counterexample for **C7** as stated: in the monolith
(`src/main.py`), whose pydantic property models lack `extra='allow'`, the
undeclared field `Extra` is dropped at validation, so an experiment created
with it reads back with different properties than were supplied — the
pass-through half of the claim fails there. -/
theorem main_roundtrip_drops_undeclared_field :
    (MainApp.create_note noFault Store.empty extraFieldReq "E7").2 = .ok "E7" ∧
    MainApp.get_note (MainApp.create_note noFault Store.empty extraFieldReq "E7").1 "E7" =
      .ok ⟨"E7", "P", "/", "exp", "alice", "2024-01-01",
           [⟨"n1", "Substances", [("Node Name", "a")]⟩], []⟩ ∧
    ([(⟨"n1", "Substances", [("Node Name", "a")]⟩ : RespNode)] ≠
      extraFieldReq.nodes.map (fun n => (⟨n.id, n.category, n.props⟩ : RespNode))) := by
  decide

/-- Witness for the amended C7: the concrete round trip through the router
variant preserves the node list verbatim. -/
theorem router_roundtrip_preserves_nodes_witness :
    NotesRouter.get_note_by_uuid
        (NotesRouter.create_note noFault Store.empty oneNodeReq "E7").1 "E7" =
      .ok ⟨"E7", "P", "/", "exp", "alice", "2024-01-01",
           [⟨"n1", "Substances", [("Node Name", "a")]⟩], []⟩ := by
  have h := router_roundtrip_preserves_nodes Store.empty oneNodeReq "E7"
    ⟨by simp [Store.empty], by simp [Store.empty]⟩ (by decide) (by decide)
    (by decide) (by decide) (by decide)
  exact h

end ExpNotes
